import Mathlib

/-!
Verification of the goal-tracking application `goals_app.py`.

The development shallowly embeds the program's pure core:

* `Date`, `fromisoformat` — the `datetime.date` values produced by
  `date.fromisoformat` on strict `YYYY-MM-DD` input, together with
  `Date.toOrdinal`, the proleptic-Gregorian day number used by the
  `date` subtraction in `calculate_time_elapsed`.
* `calculate_time_elapsed` — the elapsed-time formatter, with the ambient
  `date.today()` and `datetime.now()` strftime string passed explicitly.
* `add_goal`, `delete_goal`, `save_goals`, `load_goals`, `update_display` —
  the goal-store operations of class `GoalsApp`.  File contents are
  modelled explicitly (`DataFile`, `SettingsFile`); the in-memory list
  after a mutation is `post_mutation_state`, reflecting that every
  mutation calls `save_goals` (in-place sort by date string) and then
  `update_display` (in-place sort by parsed date, falling back to the
  string sort when some date fails to parse).
* `load_settings` — the font-size loading and validation logic.

Python's `str.strip` / `str.lower` are embedded as the structural
functions `pystrip` / `pylower` (ASCII fragment, which is what the
program's data ever contains).
-/

/-- Goal record, the dictionary `{"name": ..., "date": ...}` of the program. -/
structure Goal where
  name : String
  date : String
deriving DecidableEq

/-- Calendar date as produced by `datetime.date`. -/
structure Date where
  year : Nat
  month : Nat
  day : Nat
deriving DecidableEq

/-- Leap-year test of the Gregorian calendar (`calendar.isleap`). -/
def isLeap (y : Nat) : Bool :=
  y % 4 = 0 && (y % 100 ≠ 0 || y % 400 = 0)

/-- Number of days in a month of a given year. -/
def daysInMonth (y m : Nat) : Nat :=
  match m with
  | 1 => 31
  | 2 => if isLeap y then 29 else 28
  | 3 => 31
  | 4 => 30
  | 5 => 31
  | 6 => 30
  | 7 => 31
  | 8 => 31
  | 9 => 30
  | 10 => 31
  | 11 => 30
  | 12 => 31
  | _ => 0

/-- Validity of a `datetime.date` triple (`MINYEAR = 1`, `MAXYEAR = 9999`). -/
def Date.valid (d : Date) : Bool :=
  decide (1 ≤ d.year ∧ d.year ≤ 9999 ∧ 1 ≤ d.month ∧ d.month ≤ 12 ∧
          1 ≤ d.day ∧ d.day ≤ daysInMonth d.year d.month)

/-- Days in all years strictly before year `y` (proleptic Gregorian). -/
def daysBeforeYear (y : Nat) : Nat :=
  365 * (y - 1) + (y - 1) / 4 - (y - 1) / 100 + (y - 1) / 400

/-- Days in all months of year `y` strictly before month `m`. -/
def daysBeforeMonth (y : Nat) : Nat → Nat
  | 0 => 0
  | 1 => 0
  | n + 1 => daysBeforeMonth y n + daysInMonth y n

/-- Python's `date.toordinal`: day number with `date(1,1,1).toordinal() = 1`. -/
def Date.toOrdinal (d : Date) : Nat :=
  daysBeforeYear d.year + daysBeforeMonth d.year d.month + d.day

/-- Python's comparison of `date` objects: lexicographic on `(year, month, day)`. -/
def Date.ltDate (a b : Date) : Bool :=
  decide (a.year < b.year ∨ (a.year = b.year ∧
    (a.month < b.month ∨ (a.month = b.month ∧ a.day < b.day))))

/-- Non-strict version of `Date.ltDate`. -/
def Date.leDate (a b : Date) : Bool :=
  decide (a.year < b.year ∨ (a.year = b.year ∧
    (a.month < b.month ∨ (a.month = b.month ∧ a.day ≤ b.day))))

/-- Decimal digit test on a character. -/
def isDigitChar (c : Char) : Bool :=
  48 ≤ c.toNat && c.toNat ≤ 57

/-- Numeric value of a decimal digit character. -/
def digitVal (c : Char) : Nat :=
  c.toNat - 48

/-- Parser for the strict `YYYY-MM-DD` format accepted by
`date.fromisoformat`, on the character list of the input. -/
def parseIso (cs : List Char) : Option Date :=
  match cs with
  | [y1, y2, y3, y4, h1, m1, m2, h2, d1, d2] =>
    if isDigitChar y1 && isDigitChar y2 && isDigitChar y3 && isDigitChar y4 &&
       h1 == '-' && isDigitChar m1 && isDigitChar m2 && h2 == '-' &&
       isDigitChar d1 && isDigitChar d2 then
      let dt : Date :=
        { year := 1000 * digitVal y1 + 100 * digitVal y2 + 10 * digitVal y3 + digitVal y4
          month := 10 * digitVal m1 + digitVal m2
          day := 10 * digitVal d1 + digitVal d2 }
      if dt.valid then some dt else none
    else none
  | _ => none

/-- Python's `date.fromisoformat`: `some` on a valid `YYYY-MM-DD` string,
`none` when the call raises `ValueError`. -/
def fromisoformat (s : String) : Option Date :=
  parseIso s.data

/-- Python's `str.strip()` (ASCII whitespace fragment). -/
def pystrip (s : String) : String :=
  ⟨(((s.data.dropWhile Char.isWhitespace).reverse.dropWhile Char.isWhitespace).reverse)⟩

/-- Python's `str.lower()` (ASCII fragment). -/
def pylower (s : String) : String :=
  ⟨s.data.map Char.toLower⟩

/-- Constant `MAX_GOALS` of the program. -/
def MAX_GOALS : Nat := 10

/-- Sort key comparison used by `save_goals`:
`self.goals.sort(key=lambda x: x.get('date', '0000-00-00'))`, i.e. the
plain string order on the `date` field. -/
def dateStrLe (a b : Goal) : Bool :=
  decide (a.date ≤ b.date)

/-- Sort key comparison used by `update_display`:
`key=lambda x: date.fromisoformat(x.get('date', '9999-12-31'))`, i.e. the
`date`-object order on the parsed `date` field. -/
def dateKeyLe (a b : Goal) : Bool :=
  Date.leDate ((fromisoformat a.date).getD ⟨0, 0, 0⟩) ((fromisoformat b.date).getD ⟨0, 0, 0⟩)

/-- Method `save_goals`: sorts `self.goals` in place by the date string and
writes the sorted list to the data file.  The returned list is both the new
in-memory list and the persisted file content. -/
def save_goals (goals : List Goal) : List Goal :=
  goals.mergeSort dateStrLe

/-- Method `update_display`, restricted to its effect on `self.goals` and the
sort-fallback warning: on a non-empty list it sorts in place by parsed date;
if some date fails to parse (`ValueError` from the sort key, leaving the list
unchanged) it instead sorts by the date string and shows a warning.  Returns
the new list and whether the warning was shown. -/
def update_display (goals : List Goal) : List Goal × Bool :=
  if goals.isEmpty then (goals, false)
  else if goals.all (fun g => (fromisoformat g.date).isSome) then
    (goals.mergeSort dateKeyLe, false)
  else
    (goals.mergeSort dateStrLe, true)

/-- In-memory goal list at the end of a successful mutation handler:
`save_goals()` followed by `update_display()`. -/
def post_mutation_state (goals : List Goal) : List Goal :=
  (update_display (save_goals goals)).1

/-- Validation failures of `add_goal`, in the spec's taxonomy. -/
inductive AddError where
  | EmptyName
  | EmptyDate
  | InvalidDate
  | DuplicateName
  | CapacityExceeded
deriving DecidableEq

/-- Method `add_goal`: validates the two entry strings in program order and,
on success, appends the record and runs `save_goals` / `update_display`.
An error leaves `self.goals` untouched (the error paths only set the status
label), which the model reflects by returning no list. -/
def add_goal (goals : List Goal) (entry_goal entry_date : String) :
    Except AddError (List Goal) :=
  let goal_name := pystrip entry_goal
  let goal_date_str := pystrip entry_date
  if goal_name = "" then .error .EmptyName
  else if goal_date_str = "" then .error .EmptyDate
  else
    match fromisoformat goal_date_str with
    | none => .error .InvalidDate
    | some _ =>
      if goals.any (fun g => pylower g.name == pylower goal_name) then
        .error .DuplicateName
      else if MAX_GOALS ≤ goals.length then
        .error .CapacityExceeded
      else
        .ok (post_mutation_state (goals ++ [{ name := goal_name, date := goal_date_str }]))

/-- Failure of `delete_goal`, in the spec's taxonomy. -/
inductive DeleteError where
  | IndexOutOfRange
deriving DecidableEq

/-- Method `delete_goal`: pops the record at `index` when `0 <= index < len`,
then runs `save_goals` / `update_display`; otherwise reports an error and
leaves the list untouched. -/
def delete_goal (goals : List Goal) (index : Int) :
    Except DeleteError (Goal × List Goal) :=
  if h : 0 ≤ index ∧ index < (goals.length : Int) then
    .ok (goals.get ⟨index.toNat, by omega⟩,
         post_mutation_state (goals.eraseIdx index.toNat))
  else
    .error .IndexOutOfRange

/-- Content of the goal data file as seen by `load_goals`. -/
inductive DataFile where
  | absent
  | corrupt
  | content (goals : List Goal)

/-- Method `load_goals`: missing file gives an empty list, unparsable JSON
gives an empty list plus a warning, otherwise the parsed list.  Returns the
list and whether the warning was shown. -/
def load_goals : DataFile → List Goal × Bool
  | .absent => ([], false)
  | .corrupt => ([], true)
  | .content gs => (gs, false)

/-- Constant `DEFAULT_FONT_SIZE`. -/
def DEFAULT_FONT_SIZE : Int := 16

/-- Constant `MIN_FONT_SIZE`. -/
def MIN_FONT_SIZE : Int := 12

/-- Constant `MAX_FONT_SIZE`. -/
def MAX_FONT_SIZE : Int := 24

/-- Content of the settings file as seen by `load_settings`: missing file,
a file whose read raises `json.JSONDecodeError`/`TypeError`/`ValueError`,
or a parsed JSON object whose `font_size` key is absent or an integer. -/
inductive SettingsFile where
  | absent
  | corrupt
  | stored (font_size : Option Int)

/-- Method `load_settings`: returns the effective font size together with
whether `save_settings` was called to write a corrected value back. -/
def load_settings : SettingsFile → Int × Bool
  | .absent => (DEFAULT_FONT_SIZE, true)
  | .corrupt => (DEFAULT_FONT_SIZE, true)
  | .stored fs =>
    let loaded_size := fs.getD DEFAULT_FONT_SIZE
    if MIN_FONT_SIZE ≤ loaded_size ∧ loaded_size ≤ MAX_FONT_SIZE then
      (loaded_size, false)
    else
      (DEFAULT_FONT_SIZE, true)

/-- Clause list `parts` built by `calculate_time_elapsed` for a given
day delta. -/
def elapsed_parts (deltaDays : Int) : List String :=
  let years := deltaDays / 365
  let days := deltaDays % 365
  (if 0 < years then
     [toString years ++ " year" ++ (if 1 < years then "s" else "")]
   else []) ++
  (if 0 < days ∨ deltaDays = 0 then
     [toString days ++ " day" ++ (if days ≠ 1 then "s" else "")]
   else [])

/-- Function `calculate_time_elapsed`, with the ambient `date.today()` and
the `datetime.now().strftime(...)` string passed explicitly. -/
def calculate_time_elapsed (start_date_str : String) (today : Date) (now_str : String) :
    String × Option Int :=
  match fromisoformat start_date_str with
  | none => ("Invalid Date Format (Use YYYY-MM-DD)", none)
  | some start_date =>
    let delta : Int := (today.toOrdinal : Int) - (start_date.toOrdinal : Int)
    if delta < 0 then
      ("Date " ++ start_date_str ++ " is in the future (current time: " ++ now_str ++ ").",
       none)
    else
      let parts := elapsed_parts delta
      if delta = 0 then
        ("Today is the day!", some delta)
      else if parts = [] then
        (toString delta ++ " day" ++ (if delta ≠ 1 then "s" else "") ++ " ago", some delta)
      else
        (String.intercalate ", " parts ++ " ago", some delta)

/-- Modelled from the spec (§4.2): the phrase the specification prescribes
for a positive day delta — a pluralized year clause when `years > 0` and a
pluralized day clause when `days > 0`, joined with `", "` and suffixed with
`" ago"`, where `years = deltaDays // 365` and `days = deltaDays % 365`. -/
def elapsed_phrase_spec (deltaDays : Int) : String :=
  String.intercalate ", "
    ((if 0 < deltaDays / 365 then
        [toString (deltaDays / 365) ++ " year" ++ (if 1 < deltaDays / 365 then "s" else "")]
      else []) ++
     (if 0 < deltaDays % 365 then
        [toString (deltaDays % 365) ++ " day" ++ (if deltaDays % 365 ≠ 1 then "s" else "")]
      else [])) ++ " ago"

/-- Store invariant of the spec (§3): no two records share a
case-insensitively equal name. -/
def NamesUnique (gs : List Goal) : Prop :=
  gs.Pairwise (fun a b => pylower a.name ≠ pylower b.name)

/-! ### Inversion of the date parser -/

lemma parseIso_shape {cs : List Char} {d : Date} (h : parseIso cs = some d) :
    ∃ c1 c2 c3 c4 c5 c6 c7 c8,
      cs = [c1, c2, c3, c4, '-', c5, c6, '-', c7, c8] ∧
      (isDigitChar c1 ∧ isDigitChar c2 ∧ isDigitChar c3 ∧ isDigitChar c4 ∧
       isDigitChar c5 ∧ isDigitChar c6 ∧ isDigitChar c7 ∧ isDigitChar c8) ∧
      d.year = 1000 * digitVal c1 + 100 * digitVal c2 + 10 * digitVal c3 + digitVal c4 ∧
      d.month = 10 * digitVal c5 + digitVal c6 ∧
      d.day = 10 * digitVal c7 + digitVal c8 := by
  unfold parseIso at h
  split at h
  case _ c1 c2 c3 c4 g1 c5 c6 g2 c7 c8 =>
    split at h
    case isTrue hc =>
      simp only [] at h
      split at h
      case isTrue hv =>
        injection h with h2
        subst h2
        simp only [Bool.and_eq_true, beq_iff_eq] at hc
        obtain ⟨⟨⟨⟨⟨⟨⟨⟨⟨hd1, hd2⟩, hd3⟩, hd4⟩, hg1⟩, hd5⟩, hd6⟩, hg2⟩, hd7⟩, hd8⟩ := hc
        subst hg1; subst hg2
        exact ⟨c1, c2, c3, c4, c5, c6, c7, c8, rfl,
          ⟨hd1, hd2, hd3, hd4, hd5, hd6, hd7, hd8⟩, rfl, rfl, rfl⟩
      case isFalse hv => simp at h
    case isFalse hc => simp at h
  case _ => simp at h

/-! ### Digit characters and the order on date strings

For two strings both accepted by `fromisoformat`, the Python string order
(codepoint-lexicographic, which is also Lean's `String` order) coincides
with the order on the parsed `date` objects, because accepted strings are
zero-padded and of fixed shape. -/

lemma isDigitChar_toNat {c : Char} (h : isDigitChar c = true) :
    48 ≤ c.toNat ∧ c.toNat ≤ 57 := by
  simpa [isDigitChar, Bool.and_eq_true, decide_eq_true_eq] using h

lemma digitVal_le_nine {c : Char} (h : isDigitChar c = true) : digitVal c ≤ 9 := by
  have := isDigitChar_toNat h
  unfold digitVal
  omega

lemma char_lt_of_digitVal_lt {a b : Char} (ha : isDigitChar a = true)
    (hb : isDigitChar b = true) (h : digitVal a < digitVal b) : a < b := by
  have h1 := isDigitChar_toNat ha
  have h2 := isDigitChar_toNat hb
  have h3 : a.toNat < b.toNat := by unfold digitVal at h; omega
  exact h3

lemma char_eq_of_digitVal_eq {a b : Char} (ha : isDigitChar a = true)
    (hb : isDigitChar b = true) (h : digitVal a = digitVal b) : a = b := by
  have h1 := isDigitChar_toNat ha
  have h2 := isDigitChar_toNat hb
  have h3 : a.toNat = b.toNat := by unfold digitVal at h; omega
  rw [← Char.ofNat_toNat a, h3, Char.ofNat_toNat]

lemma str_lt_of_ltDate {s t : String} {d e : Date}
    (hs : fromisoformat s = some d) (ht : fromisoformat t = some e)
    (h : Date.ltDate d e = true) : s < t := by
  obtain ⟨a1, a2, a3, a4, a5, a6, a7, a8, hsd, ⟨da1, da2, da3, da4, da5, da6, da7, da8⟩,
    hya, hma, hda⟩ := parseIso_shape hs
  obtain ⟨b1, b2, b3, b4, b5, b6, b7, b8, htd, ⟨db1, db2, db3, db4, db5, db6, db7, db8⟩,
    hyb, hmb, hdb⟩ := parseIso_shape ht
  simp only [Date.ltDate, decide_eq_true_eq] at h
  rw [hya, hma, hda, hyb, hmb, hdb] at h
  have la1 := digitVal_le_nine da1; have la2 := digitVal_le_nine da2
  have la3 := digitVal_le_nine da3; have la4 := digitVal_le_nine da4
  have la5 := digitVal_le_nine da5; have la6 := digitVal_le_nine da6
  have la7 := digitVal_le_nine da7; have la8 := digitVal_le_nine da8
  have lb1 := digitVal_le_nine db1; have lb2 := digitVal_le_nine db2
  have lb3 := digitVal_le_nine db3; have lb4 := digitVal_le_nine db4
  have lb5 := digitVal_le_nine db5; have lb6 := digitVal_le_nine db6
  have lb7 := digitVal_le_nine db7; have lb8 := digitVal_le_nine db8
  have key : digitVal a1 < digitVal b1 ∨ (digitVal a1 = digitVal b1 ∧
      (digitVal a2 < digitVal b2 ∨ (digitVal a2 = digitVal b2 ∧
      (digitVal a3 < digitVal b3 ∨ (digitVal a3 = digitVal b3 ∧
      (digitVal a4 < digitVal b4 ∨ (digitVal a4 = digitVal b4 ∧
      (digitVal a5 < digitVal b5 ∨ (digitVal a5 = digitVal b5 ∧
      (digitVal a6 < digitVal b6 ∨ (digitVal a6 = digitVal b6 ∧
      (digitVal a7 < digitVal b7 ∨ (digitVal a7 = digitVal b7 ∧
       digitVal a8 < digitVal b8))))))))))))) := by omega
  rw [String.lt_iff_toList_lt]
  show s.data < t.data
  rw [hsd, htd]
  show List.Lex (· < ·) [a1, a2, a3, a4, '-', a5, a6, '-', a7, a8]
    [b1, b2, b3, b4, '-', b5, b6, '-', b7, b8]
  rcases key with hk | ⟨he, key⟩
  · exact .rel (char_lt_of_digitVal_lt da1 db1 hk)
  cases char_eq_of_digitVal_eq da1 db1 he
  refine .cons ?_
  rcases key with hk | ⟨he, key⟩
  · exact .rel (char_lt_of_digitVal_lt da2 db2 hk)
  cases char_eq_of_digitVal_eq da2 db2 he
  refine .cons ?_
  rcases key with hk | ⟨he, key⟩
  · exact .rel (char_lt_of_digitVal_lt da3 db3 hk)
  cases char_eq_of_digitVal_eq da3 db3 he
  refine .cons ?_
  rcases key with hk | ⟨he, key⟩
  · exact .rel (char_lt_of_digitVal_lt da4 db4 hk)
  cases char_eq_of_digitVal_eq da4 db4 he
  refine .cons (.cons ?_)
  rcases key with hk | ⟨he, key⟩
  · exact .rel (char_lt_of_digitVal_lt da5 db5 hk)
  cases char_eq_of_digitVal_eq da5 db5 he
  refine .cons ?_
  rcases key with hk | ⟨he, key⟩
  · exact .rel (char_lt_of_digitVal_lt da6 db6 hk)
  cases char_eq_of_digitVal_eq da6 db6 he
  refine .cons (.cons ?_)
  rcases key with hk | ⟨he, key⟩
  · exact .rel (char_lt_of_digitVal_lt da7 db7 hk)
  cases char_eq_of_digitVal_eq da7 db7 he
  exact .cons (.rel (char_lt_of_digitVal_lt da8 db8 key))

lemma str_eq_of_parse_eq {s t : String} {d : Date}
    (hs : fromisoformat s = some d) (ht : fromisoformat t = some d) : s = t := by
  obtain ⟨a1, a2, a3, a4, a5, a6, a7, a8, hsd, ⟨da1, da2, da3, da4, da5, da6, da7, da8⟩,
    hya, hma, hda⟩ := parseIso_shape hs
  obtain ⟨b1, b2, b3, b4, b5, b6, b7, b8, htd, ⟨db1, db2, db3, db4, db5, db6, db7, db8⟩,
    hyb, hmb, hdb⟩ := parseIso_shape ht
  have la1 := digitVal_le_nine da1; have la2 := digitVal_le_nine da2
  have la3 := digitVal_le_nine da3; have la4 := digitVal_le_nine da4
  have la5 := digitVal_le_nine da5; have la6 := digitVal_le_nine da6
  have la7 := digitVal_le_nine da7; have la8 := digitVal_le_nine da8
  have lb1 := digitVal_le_nine db1; have lb2 := digitVal_le_nine db2
  have lb3 := digitVal_le_nine db3; have lb4 := digitVal_le_nine db4
  have lb5 := digitVal_le_nine db5; have lb6 := digitVal_le_nine db6
  have lb7 := digitVal_le_nine db7; have lb8 := digitVal_le_nine db8
  have e1 : a1 = b1 := char_eq_of_digitVal_eq da1 db1 (by omega)
  have e2 : a2 = b2 := char_eq_of_digitVal_eq da2 db2 (by omega)
  have e3 : a3 = b3 := char_eq_of_digitVal_eq da3 db3 (by omega)
  have e4 : a4 = b4 := char_eq_of_digitVal_eq da4 db4 (by omega)
  have e5 : a5 = b5 := char_eq_of_digitVal_eq da5 db5 (by omega)
  have e6 : a6 = b6 := char_eq_of_digitVal_eq da6 db6 (by omega)
  have e7 : a7 = b7 := char_eq_of_digitVal_eq da7 db7 (by omega)
  have e8 : a8 = b8 := char_eq_of_digitVal_eq da8 db8 (by omega)
  have hdata : s.data = t.data := by
    rw [hsd, htd, e1, e2, e3, e4, e5, e6, e7, e8]
  cases s
  cases t
  exact congrArg String.mk (by simpa using hdata)

lemma str_le_of_leDate {s t : String} {d e : Date}
    (hs : fromisoformat s = some d) (ht : fromisoformat t = some e)
    (h : Date.leDate d e = true) : s ≤ t := by
  by_cases heq : d = e
  · subst heq
    exact le_of_eq (str_eq_of_parse_eq hs ht)
  · refine le_of_lt (str_lt_of_ltDate hs ht ?_)
    simp only [Date.leDate, decide_eq_true_eq] at h
    simp only [Date.ltDate, decide_eq_true_eq]
    obtain ⟨dy, dm, dd⟩ := d
    obtain ⟨ey, em, ed⟩ := e
    simp only [Date.mk.injEq] at heq
    dsimp only at h ⊢
    omega

/-! ### Comparator properties and basic facts about the store operations -/

lemma dateStrLe_trans : ∀ (a b c : Goal), dateStrLe a b → dateStrLe b c → dateStrLe a c := by
  intro a b c h1 h2
  simp only [dateStrLe, decide_eq_true_eq] at h1 h2 ⊢
  exact le_trans h1 h2

lemma dateStrLe_total : ∀ (a b : Goal), dateStrLe a b || dateStrLe b a := by
  intro a b
  simp only [dateStrLe, Bool.or_eq_true, decide_eq_true_eq]
  exact le_total _ _

lemma leDate_trans : ∀ (a b c : Date), Date.leDate a b → Date.leDate b c → Date.leDate a c := by
  intro a b c h1 h2
  simp only [Date.leDate, decide_eq_true_eq] at h1 h2 ⊢
  omega

lemma leDate_total : ∀ (a b : Date), Date.leDate a b || Date.leDate b a := by
  intro a b
  simp only [Date.leDate, Bool.or_eq_true, decide_eq_true_eq]
  omega

lemma dateKeyLe_trans : ∀ (a b c : Goal), dateKeyLe a b → dateKeyLe b c → dateKeyLe a c := by
  intro a b c h1 h2
  exact leDate_trans _ _ _ h1 h2

lemma dateKeyLe_total : ∀ (a b : Goal), dateKeyLe a b || dateKeyLe b a := by
  intro a b
  exact leDate_total _ _

lemma dateKeyLe_imp_strLe {a b : Goal} (ha : (fromisoformat a.date).isSome)
    (hb : (fromisoformat b.date).isSome) (h : dateKeyLe a b = true) :
    a.date ≤ b.date := by
  obtain ⟨da, hda⟩ := Option.isSome_iff_exists.mp ha
  obtain ⟨db, hdb⟩ := Option.isSome_iff_exists.mp hb
  unfold dateKeyLe at h
  rw [hda, hdb] at h
  simp only [Option.getD_some] at h
  exact str_le_of_leDate hda hdb h

lemma save_goals_perm (gs : List Goal) : (save_goals gs).Perm gs :=
  List.mergeSort_perm gs _

lemma save_goals_sorted (gs : List Goal) :
    (save_goals gs).Sorted (fun a b : Goal => a.date ≤ b.date) := by
  have h := List.sorted_mergeSort dateStrLe_trans dateStrLe_total gs
  exact h.imp (fun hab => by simpa only [dateStrLe, decide_eq_true_eq] using hab)

lemma update_display_perm (gs : List Goal) : (update_display gs).1.Perm gs := by
  unfold update_display
  split
  · exact List.Perm.refl _
  split
  · exact List.mergeSort_perm gs _
  · exact List.mergeSort_perm gs _

lemma post_mutation_perm (gs : List Goal) : (post_mutation_state gs).Perm gs :=
  (update_display_perm _).trans (save_goals_perm _)

lemma update_display_sorted (gs : List Goal) :
    ((update_display gs).1).Sorted (fun a b : Goal => a.date ≤ b.date) := by
  unfold update_display
  split
  case isTrue hemp =>
    rw [List.isEmpty_iff.mp hemp]
    exact List.sorted_nil
  case isFalse hemp =>
    split
    case isTrue hall =>
      have h := List.sorted_mergeSort dateKeyLe_trans dateKeyLe_total gs
      refine h.imp_of_mem ?_
      intro a b hma hmb hab
      have ha := List.all_eq_true.mp hall a (List.mem_mergeSort.mp hma)
      have hb := List.all_eq_true.mp hall b (List.mem_mergeSort.mp hmb)
      exact dateKeyLe_imp_strLe ha hb hab
    case isFalse =>
      have h := List.sorted_mergeSort dateStrLe_trans dateStrLe_total gs
      exact h.imp (fun hab => by simpa only [dateStrLe, decide_eq_true_eq] using hab)

lemma post_mutation_sorted (gs : List Goal) :
    (post_mutation_state gs).Sorted (fun a b : Goal => a.date ≤ b.date) :=
  update_display_sorted _

lemma fromisoformat_empty : fromisoformat "" = none := rfl

/-- Success inversion for `add_goal`: an `ok` result means every validation
passed and the result is the appended list after the two in-place sorts. -/
lemma add_goal_ok_inv {goals : List Goal} {n d : String} {gs' : List Goal}
    (h : add_goal goals n d = .ok gs') :
    pystrip n ≠ "" ∧ (fromisoformat (pystrip d)).isSome ∧
    (∀ g ∈ goals, pylower g.name ≠ pylower (pystrip n)) ∧
    goals.length < MAX_GOALS ∧
    gs' = post_mutation_state (goals ++ [⟨pystrip n, pystrip d⟩]) := by
  unfold add_goal at h
  simp only [] at h
  split at h
  case isTrue => simp at h
  case isFalse h1 =>
    split at h
    case isTrue => simp at h
    case isFalse h2 =>
      split at h
      case _ => simp at h
      case _ dd hdd =>
        split at h
        case isTrue => simp at h
        case isFalse h3 =>
          split at h
          case isTrue => simp at h
          case isFalse h4 =>
            injection h with h5
            refine ⟨h1, by rw [hdd]; rfl, ?_, by omega, h5.symm⟩
            intro g hg hne
            exact h3 (List.any_eq_true.mpr ⟨g, hg, by simp [hne]⟩)

/-- Success of `add_goal` under the validation hypotheses. -/
lemma add_goal_ok_of_valid {goals : List Goal} {n d : String}
    (h1 : pystrip n ≠ "") (h2 : (fromisoformat (pystrip d)).isSome)
    (h3 : ∀ g ∈ goals, pylower g.name ≠ pylower (pystrip n))
    (h4 : goals.length < MAX_GOALS) :
    add_goal goals n d = .ok (post_mutation_state (goals ++ [⟨pystrip n, pystrip d⟩])) := by
  obtain ⟨dd, hdd⟩ := Option.isSome_iff_exists.mp h2
  have hne : pystrip d ≠ "" := by
    intro he
    rw [he, fromisoformat_empty] at hdd
    cases hdd
  have hany : goals.any (fun g => pylower g.name == pylower (pystrip n)) = false := by
    rw [Bool.eq_false_iff]
    intro hc
    obtain ⟨g, hg, hbeq⟩ := List.any_eq_true.mp hc
    exact h3 g hg (by simpa [beq_iff_eq] using hbeq)
  unfold add_goal
  simp only []
  rw [if_neg h1, if_neg hne, hdd, hany]
  simp only [Bool.false_eq_true, if_false]
  rw [if_neg (by omega)]

/-- Inversion for `delete_goal` on an `ok` result. -/
lemma delete_goal_ok_inv {goals : List Goal} {i : Int} {g : Goal} {gs' : List Goal}
    (h : delete_goal goals i = .ok (g, gs')) :
    ∃ hin : 0 ≤ i ∧ i < (goals.length : Int),
      g = goals.get ⟨i.toNat, by omega⟩ ∧
      gs' = post_mutation_state (goals.eraseIdx i.toNat) := by
  unfold delete_goal at h
  split at h
  case isTrue hin =>
    injection h with h
    injection h with hg hgs
    exact ⟨hin, hg.symm, hgs.symm⟩
  case isFalse => simp at h

/-! ### Remaining helper lemmas -/

lemma not_mem_eraseIdx_of_nodup {α : Type} :
    ∀ (l : List α) (i : Nat) (h : i < l.length), l.Nodup → l.get ⟨i, h⟩ ∉ l.eraseIdx i := by
  intro l
  induction l with
  | nil => intro i h; simp at h
  | cons a l ih =>
    intro i h hnd
    rw [List.nodup_cons] at hnd
    cases i with
    | zero =>
      simpa using hnd.1
    | succ j =>
      simp only [List.eraseIdx_cons_succ, List.get_cons_succ, List.mem_cons, not_or]
      have hj : j < l.length := by simpa using h
      constructor
      · intro he
        exact hnd.1 (he ▸ List.get_mem l j hj)
      · exact ih j hj hnd.2

lemma elapsed_parts_ne_nil {deltaDays : Int} (h : 0 < deltaDays) :
    elapsed_parts deltaDays ≠ [] := by
  unfold elapsed_parts
  simp only []
  by_cases hy : 0 < deltaDays / 365
  · simp [hy]
  · have hd : 0 < deltaDays % 365 := by omega
    simp [hy, hd]

lemma elapsed_phrase_eq {deltaDays : Int} (h : 0 < deltaDays) :
    String.intercalate ", " (elapsed_parts deltaDays) ++ " ago" =
      elapsed_phrase_spec deltaDays := by
  unfold elapsed_parts elapsed_phrase_spec
  simp only []
  have hiff : (0 < deltaDays % 365 ∨ deltaDays = 0) ↔ 0 < deltaDays % 365 := by
    constructor
    · rintro (h1 | h1)
      · exact h1
      · omega
    · exact Or.inl
  rw [if_congr hiff rfl rfl]

lemma namesUnique_of_perm {l1 l2 : List Goal} (hp : l1.Perm l2) (h : NamesUnique l2) :
    NamesUnique l1 := by
  unfold NamesUnique at *
  exact (hp.pairwise_iff (fun h he => h he.symm)).mpr h

/-! ### Claim theorems -/

/-- C1: for every store holding fewer than `MAX_GOALS` records and every
`(name, dateStr)` whose stripped name is non-empty, whose stripped date
parses as an ISO calendar date, and whose stripped name is not a
case-insensitive duplicate of an existing record's name, `add_goal`
succeeds, appending the record `{name, dateStr}` (the result is a
permutation of the appended list), and a subsequent `update_display`
listing contains exactly one record with that name and date. -/
theorem C1_add_valid_succeeds (goals : List Goal) (name dateStr : String)
    (hcap : goals.length < MAX_GOALS)
    (hname : pystrip name ≠ "")
    (hdate : (fromisoformat (pystrip dateStr)).isSome)
    (hdup : ∀ g ∈ goals, pylower g.name ≠ pylower (pystrip name)) :
    ∃ gs', add_goal goals name dateStr = .ok gs' ∧
      gs'.Perm (goals ++ [⟨pystrip name, pystrip dateStr⟩]) ∧
      (update_display gs').1.countP
        (fun g => g.name == pystrip name && g.date == pystrip dateStr) = 1 := by
  refine ⟨_, add_goal_ok_of_valid hname hdate hdup hcap, post_mutation_perm _, ?_⟩
  have hperm :
      (update_display (post_mutation_state
        (goals ++ [⟨pystrip name, pystrip dateStr⟩]))).1.Perm
        (goals ++ [⟨pystrip name, pystrip dateStr⟩]) :=
    (update_display_perm _).trans (post_mutation_perm _)
  rw [hperm.countP_eq, List.countP_append]
  have h0 : goals.countP
      (fun g => g.name == pystrip name && g.date == pystrip dateStr) = 0 := by
    rw [List.countP_eq_zero]
    intro g hg hp
    simp only [Bool.and_eq_true, beq_iff_eq] at hp
    exact hdup g hg (by rw [hp.1])
  rw [h0]
  simp

/-- C1 witness: adding `"Quit Caffeine"` with date `" 2020-01-01 "` to the
empty store. -/
theorem C1_witness :
    ∃ gs', add_goal [] "Quit Caffeine" " 2020-01-01 " = .ok gs' ∧
      gs'.Perm ([] ++ [⟨pystrip "Quit Caffeine", pystrip " 2020-01-01 "⟩]) ∧
      (update_display gs').1.countP
        (fun g => g.name == pystrip "Quit Caffeine" && g.date == pystrip " 2020-01-01 ") = 1 :=
  C1_add_valid_succeeds [] "Quit Caffeine" " 2020-01-01 "
    (by decide) (by decide) (by decide) (by simp)

/-- C2: adding to a store already holding exactly `MAX_GOALS` records, with
an otherwise valid non-duplicate name and well-formed date, fails with
`CapacityExceeded`; the error path of `add_goal` performs no mutation of
the store. -/
theorem C2_capacity_exceeded (goals : List Goal) (name dateStr : String)
    (hlen : goals.length = MAX_GOALS)
    (hname : pystrip name ≠ "")
    (hdate : (fromisoformat (pystrip dateStr)).isSome)
    (hdup : ∀ g ∈ goals, pylower g.name ≠ pylower (pystrip name)) :
    add_goal goals name dateStr = .error .CapacityExceeded := by
  obtain ⟨dd, hdd⟩ := Option.isSome_iff_exists.mp hdate
  have hne : pystrip dateStr ≠ "" := by
    intro he
    rw [he, fromisoformat_empty] at hdd
    cases hdd
  have hany : goals.any (fun g => pylower g.name == pylower (pystrip name)) = false := by
    rw [Bool.eq_false_iff]
    intro hc
    obtain ⟨g, hg, hbeq⟩ := List.any_eq_true.mp hc
    exact hdup g hg (by simpa [beq_iff_eq] using hbeq)
  unfold add_goal
  simp only []
  rw [if_neg hname, if_neg hne, hdd]
  simp only [hany, Bool.false_eq_true, if_false]
  rw [if_pos (by omega)]

/-- C2 witness: a full store of ten goals rejects an eleventh. -/
theorem C2_witness :
    add_goal
      [⟨"g0", "2020-01-01"⟩, ⟨"g1", "2020-01-02"⟩, ⟨"g2", "2020-01-03"⟩,
       ⟨"g3", "2020-01-04"⟩, ⟨"g4", "2020-01-05"⟩, ⟨"g5", "2020-01-06"⟩,
       ⟨"g6", "2020-01-07"⟩, ⟨"g7", "2020-01-08"⟩, ⟨"g8", "2020-01-09"⟩,
       ⟨"g9", "2020-01-10"⟩] "Quit Sugar" "2021-01-01" = .error .CapacityExceeded :=
  C2_capacity_exceeded _ "Quit Sugar" "2021-01-01"
    (by decide) (by decide) (by decide) (by decide)

/-- C3 counterexample: an add whose name matches an existing record
case-insensitively does not always fail with `DuplicateName` — the
earlier validations win: with a malformed date it fails with
`InvalidDate`, and with a name that strips to empty (matching an existing
empty name) it fails with `EmptyName`. -/
theorem C3_counterexample :
    (pylower "quit sugar" = pylower (pystrip "Quit Sugar") ∧
     add_goal [⟨"quit sugar", "2020-01-01"⟩] "Quit Sugar" "bad-date" =
       .error .InvalidDate) ∧
    (pylower "" = pylower (pystrip " ") ∧
     add_goal [⟨"", "2020-01-01"⟩] " " "2021-01-01" = .error .EmptyName) :=
  ⟨⟨by decide, rfl⟩, ⟨by decide, rfl⟩⟩

/-- C3 (amended): provided the earlier validations pass (non-empty stripped
name, parseable stripped date), an add whose stripped name matches an
existing record's name case-insensitively fails with `DuplicateName` (and
the error path performs no mutation); moreover the no-duplicate-names
invariant `NamesUnique` is preserved by every successful `add_goal` and
`delete_goal`. -/
theorem C3_duplicate_and_invariant (goals : List Goal) (name dateStr : String) :
    (pystrip name ≠ "" → (fromisoformat (pystrip dateStr)).isSome →
      (∃ g ∈ goals, pylower g.name = pylower (pystrip name)) →
      add_goal goals name dateStr = .error .DuplicateName) ∧
    (NamesUnique goals → ∀ gs', add_goal goals name dateStr = .ok gs' → NamesUnique gs') ∧
    (NamesUnique goals → ∀ (i : Int) (g : Goal) (gs' : List Goal),
      delete_goal goals i = .ok (g, gs') → NamesUnique gs') := by
  refine ⟨?_, ?_, ?_⟩
  · intro h1 h2 ⟨g, hg, hmatch⟩
    obtain ⟨dd, hdd⟩ := Option.isSome_iff_exists.mp h2
    have hne : pystrip dateStr ≠ "" := by
      intro he
      rw [he, fromisoformat_empty] at hdd
      cases hdd
    have hany : goals.any (fun g => pylower g.name == pylower (pystrip name)) = true :=
      List.any_eq_true.mpr ⟨g, hg, by simpa [beq_iff_eq] using hmatch⟩
    unfold add_goal
    simp only []
    rw [if_neg h1, if_neg hne, hdd]
    simp [hany]
  · intro hinv gs' hok
    obtain ⟨_, _, hdup, _, hgs⟩ := add_goal_ok_inv hok
    rw [hgs]
    refine namesUnique_of_perm (post_mutation_perm _) ?_
    unfold NamesUnique
    rw [List.pairwise_append]
    refine ⟨hinv, by simp, ?_⟩
    intro a ha b hb
    simp only [List.mem_singleton] at hb
    subst hb
    exact hdup a ha
  · intro hinv i g gs' hok
    obtain ⟨hin, _, hgs⟩ := delete_goal_ok_inv hok
    rw [hgs]
    refine namesUnique_of_perm (post_mutation_perm _) ?_
    exact List.Pairwise.sublist (List.eraseIdx_sublist _ _) hinv

/-- C3 witness: adding `"Quit Sugar"` with a valid date when
`"quit sugar"` already exists fails with `DuplicateName`. -/
theorem C3_witness :
    add_goal [⟨"quit sugar", "2020-01-01"⟩] "Quit Sugar" "2021-05-05" =
      .error .DuplicateName :=
  (C3_duplicate_and_invariant [⟨"quit sugar", "2020-01-01"⟩] "Quit Sugar" "2021-05-05").1
    (by decide) (by decide) ⟨⟨"quit sugar", "2020-01-01"⟩, by simp, by decide⟩

/-- C4 counterexample: on a store containing the same record twice (which
`load_goals` permits, since loading performs no validation), deleting
index 0 succeeds yet a subsequent listing still returns the removed
record. -/
theorem C4_counterexample :
    delete_goal [⟨"a", "2020-01-01"⟩, ⟨"a", "2020-01-01"⟩] 0 =
      .ok (⟨"a", "2020-01-01"⟩, post_mutation_state [⟨"a", "2020-01-01"⟩]) ∧
    (⟨"a", "2020-01-01"⟩ : Goal) ∈
      (update_display (post_mutation_state [⟨"a", "2020-01-01"⟩])).1 := by
  refine ⟨rfl, ?_⟩
  refine ((update_display_perm _).trans (post_mutation_perm _)).mem_iff.mpr ?_
  simp

/-- C4 (amended): for every store with no duplicate records and every
integer index, `delete_goal` fails with `IndexOutOfRange` when the index is
not in `[0, len)` (the error path performs no mutation), and when the index
is in range it removes and returns the record at that position, after which
a subsequent `update_display` listing no longer returns the removed
record. -/
theorem C4_remove_at (goals : List Goal) (index : Int) (hnd : goals.Nodup) :
    (¬ (0 ≤ index ∧ index < (goals.length : Int)) →
        delete_goal goals index = .error .IndexOutOfRange) ∧
    (∀ g : Goal, goals[index.toNat]? = some g → 0 ≤ index →
        delete_goal goals index =
          .ok (g, post_mutation_state (goals.eraseIdx index.toNat)) ∧
        g ∉ (update_display (post_mutation_state (goals.eraseIdx index.toNat))).1) := by
  constructor
  · intro hout
    unfold delete_goal
    rw [dif_neg hout]
  · intro g hg h0
    obtain ⟨hlt, hget⟩ := List.getElem?_eq_some_iff.mp hg
    constructor
    · unfold delete_goal
      rw [dif_pos ⟨h0, by omega⟩]
      simp only [List.get_eq_getElem, hget]
    · have hni : g ∉ goals.eraseIdx index.toNat := by
        have := not_mem_eraseIdx_of_nodup goals index.toNat hlt hnd
        simpa [List.get_eq_getElem, hget] using this
      intro hmem
      exact hni (((update_display_perm _).trans (post_mutation_perm _)).mem_iff.mp hmem)

/-- C4 witness: deleting index 0 from a one-record store. -/
theorem C4_witness :
    delete_goal [⟨"a", "2020-01-01"⟩] 0 =
      .ok (⟨"a", "2020-01-01"⟩, post_mutation_state ([⟨"a", "2020-01-01"⟩].eraseIdx 0)) ∧
    (⟨"a", "2020-01-01"⟩ : Goal) ∉
      (update_display (post_mutation_state ([⟨"a", "2020-01-01"⟩].eraseIdx 0))).1 :=
  (C4_remove_at [⟨"a", "2020-01-01"⟩] 0 (by simp)).2 ⟨"a", "2020-01-01"⟩ rfl (by decide)

/-- C5: `calculate_time_elapsed` matches the specified reference behaviour:
an unparsable date yields the fixed invalid-format message and no count; a
future date yields the future-date message (containing the current
date-time string) and no count; an equal date yields `("Today is the
day!", 0)`; and a past date yields the spec's year/day phrase
(`elapsed_phrase_spec`) paired with the exact day delta. -/
theorem C5_elapsed_spec (s : String) (today : Date) (now_str : String) :
    (fromisoformat s = none →
      calculate_time_elapsed s today now_str =
        ("Invalid Date Format (Use YYYY-MM-DD)", none)) ∧
    (∀ d : Date, fromisoformat s = some d →
      ((today.toOrdinal : Int) < (d.toOrdinal : Int) →
        calculate_time_elapsed s today now_str =
          ("Date " ++ s ++ " is in the future (current time: " ++ now_str ++ ").", none)) ∧
      (today.toOrdinal = d.toOrdinal →
        calculate_time_elapsed s today now_str = ("Today is the day!", some 0)) ∧
      ((d.toOrdinal : Int) < (today.toOrdinal : Int) →
        calculate_time_elapsed s today now_str =
          (elapsed_phrase_spec ((today.toOrdinal : Int) - (d.toOrdinal : Int)),
           some ((today.toOrdinal : Int) - (d.toOrdinal : Int))))) := by
  constructor
  · intro h
    unfold calculate_time_elapsed
    rw [h]
  · intro d hd
    refine ⟨?_, ?_, ?_⟩
    · intro hlt
      unfold calculate_time_elapsed
      rw [hd]
      simp only []
      rw [if_pos (by omega : (today.toOrdinal : Int) - (d.toOrdinal : Int) < 0)]
    · intro heq
      have h0 : (today.toOrdinal : Int) - (d.toOrdinal : Int) = 0 := by omega
      unfold calculate_time_elapsed
      rw [hd]
      simp only []
      rw [if_neg (by omega : ¬ ((today.toOrdinal : Int) - (d.toOrdinal : Int) < 0)),
          if_pos h0, h0]
    · intro hgt
      have hpos : (0 : Int) < (today.toOrdinal : Int) - (d.toOrdinal : Int) := by omega
      have hne := elapsed_parts_ne_nil hpos
      unfold calculate_time_elapsed
      rw [hd]
      simp only []
      rw [if_neg (by omega : ¬ ((today.toOrdinal : Int) - (d.toOrdinal : Int) < 0)),
          if_neg (by omega : ¬ ((today.toOrdinal : Int) - (d.toOrdinal : Int) = 0)),
          if_neg hne, elapsed_phrase_eq hpos]

/-- C5 witness: the spec's example `elapsed("2020-01-01", today=2023-01-01)`,
1096 elapsed days, phrase "3 years, 1 day ago". -/
theorem C5_witness :
    calculate_time_elapsed "2020-01-01" ⟨2023, 1, 1⟩ "2023-01-01 09:00" =
      (elapsed_phrase_spec (((⟨2023, 1, 1⟩ : Date).toOrdinal : Int) -
          ((⟨2020, 1, 1⟩ : Date).toOrdinal : Int)),
       some (((⟨2023, 1, 1⟩ : Date).toOrdinal : Int) -
          ((⟨2020, 1, 1⟩ : Date).toOrdinal : Int))) :=
  ((C5_elapsed_spec "2020-01-01" ⟨2023, 1, 1⟩ "2023-01-01 09:00").2 ⟨2020, 1, 1⟩
    (by decide)).2.2 (by decide)

/-- C6 counterexample: `load_settings` only range-checks the stored size, so
a stored `font_size` of 13 (inside `[12, 24]` but not a step of 2) is kept
as the effective size, and a parseable settings object with the `font_size`
key missing yields the default 16 without any write-back. -/
theorem C6_counterexample :
    (load_settings (.stored (some 13)) = (13, false) ∧ ¬ (13 % 2 = 0)) ∧
    load_settings (.stored none) = (16, false) :=
  ⟨⟨rfl, by decide⟩, rfl⟩

/-- C6 (amended): loading settings always yields an effective font size in
`[MIN_FONT_SIZE, MAX_FONT_SIZE]` (any integer in range is kept, steps of 2
are not enforced), defaulting to 16; a stored out-of-range value is
silently replaced by the default and written back; a missing `font_size`
key in a parseable file yields the default without a write-back; a missing
or unreadable file yields the default with a write-back. -/
theorem C6_font_size_load (f : SettingsFile) :
    (MIN_FONT_SIZE ≤ (load_settings f).1 ∧ (load_settings f).1 ≤ MAX_FONT_SIZE) ∧
    (∀ v : Int, f = .stored (some v) → (v < MIN_FONT_SIZE ∨ MAX_FONT_SIZE < v) →
      load_settings f = (DEFAULT_FONT_SIZE, true)) ∧
    (f = .stored none → load_settings f = (DEFAULT_FONT_SIZE, false)) ∧
    ((f = .absent ∨ f = .corrupt) → load_settings f = (DEFAULT_FONT_SIZE, true)) := by
  cases f with
  | absent =>
    refine ⟨⟨by decide, by decide⟩, ?_, ?_, ?_⟩
    · intro v hv hr
      exact SettingsFile.noConfusion hv
    · intro hv
      exact SettingsFile.noConfusion hv
    · intro _
      rfl
  | corrupt =>
    refine ⟨⟨by decide, by decide⟩, ?_, ?_, ?_⟩
    · intro v hv hr
      exact SettingsFile.noConfusion hv
    · intro hv
      exact SettingsFile.noConfusion hv
    · intro _
      rfl
  | stored fs =>
    cases fs with
    | none =>
      refine ⟨⟨by decide, by decide⟩, ?_, fun _ => rfl, ?_⟩
      · intro v hv hr
        exact SettingsFile.noConfusion hv (fun h => Option.noConfusion h)
      · intro hv
        rcases hv with hv | hv <;> exact SettingsFile.noConfusion hv
    | some v =>
      refine ⟨?_, ?_, ?_, ?_⟩
      · unfold load_settings
        simp only [Option.getD_some]
        split
        case isTrue h => exact h
        case isFalse h => exact ⟨by decide, by decide⟩
      · intro w hw hrange
        injection hw with hw
        injection hw with hw
        subst hw
        unfold load_settings
        simp only [Option.getD_some]
        rw [if_neg (by unfold MIN_FONT_SIZE MAX_FONT_SIZE at *; omega)]
      · intro hv
        exact SettingsFile.noConfusion hv (fun h => Option.noConfusion h)
      · intro hv
        rcases hv with hv | hv <;> exact SettingsFile.noConfusion hv

/-- C6 witness: the spec's example, a stored `font_size` of 5 is replaced
by the default 16 and written back. -/
theorem C6_witness :
    load_settings (.stored (some 5)) = (DEFAULT_FONT_SIZE, true) :=
  (C6_font_size_load (.stored (some 5))).2.1 5 rfl (Or.inl (by decide))

/-- C7: `update_display` (the spec's `listSortedByDate`) returns a
permutation of the records; when every record's date parses it is ordered
ascending by parsed calendar date with no warning, and when some record's
date fails to parse it falls back to the date-string order for the whole
list and signals the sort-fallback warning. -/
theorem C7_list_sorted_by_date (goals : List Goal) :
    ((∀ g ∈ goals, (fromisoformat g.date).isSome) →
      (update_display goals).2 = false ∧ (update_display goals).1.Perm goals ∧
      (update_display goals).1.Pairwise (fun a b => dateKeyLe a b = true)) ∧
    ((∃ g ∈ goals, fromisoformat g.date = none) →
      (update_display goals).2 = true ∧ (update_display goals).1.Perm goals ∧
      (update_display goals).1.Sorted (fun a b : Goal => a.date ≤ b.date)) := by
  constructor
  · intro hall
    unfold update_display
    split
    case isTrue hemp =>
      rw [List.isEmpty_iff.mp hemp]
      exact ⟨rfl, List.Perm.refl _, List.Pairwise.nil⟩
    case isFalse hemp =>
      rw [if_pos (List.all_eq_true.mpr hall)]
      exact ⟨rfl, List.mergeSort_perm _ _,
        List.sorted_mergeSort dateKeyLe_trans dateKeyLe_total _⟩
  · intro ⟨g, hg, hnone⟩
    have hne : ¬ goals.isEmpty = true := by
      intro h
      rw [List.isEmpty_iff.mp h] at hg
      cases hg
    have hnall : ¬ goals.all (fun g => (fromisoformat g.date).isSome) = true := by
      intro hall
      have := List.all_eq_true.mp hall g hg
      rw [hnone] at this
      cases this
    unfold update_display
    rw [if_neg hne, if_neg hnall]
    exact ⟨rfl, List.mergeSort_perm _ _, save_goals_sorted goals⟩

/-- C7 witness: a two-record store with parseable dates is listed without
warning, as a permutation, ordered by parsed date. -/
theorem C7_witness :
    (update_display [⟨"b", "2021-01-01"⟩, ⟨"a", "2020-01-01"⟩]).2 = false ∧
    (update_display [⟨"b", "2021-01-01"⟩, ⟨"a", "2020-01-01"⟩]).1.Perm
      [⟨"b", "2021-01-01"⟩, ⟨"a", "2020-01-01"⟩] ∧
    (update_display [⟨"b", "2021-01-01"⟩, ⟨"a", "2020-01-01"⟩]).1.Pairwise
      (fun a b => dateKeyLe a b = true) :=
  (C7_list_sorted_by_date [⟨"b", "2021-01-01"⟩, ⟨"a", "2020-01-01"⟩]).1 (by decide)

/-- C8: saving a store and loading it back from the same file yields
exactly the persisted list, equal as a set of records to the list that was
saved, and sorted ascending by date string. -/
theorem C8_save_load_roundtrip (goals : List Goal) :
    (load_goals (.content (save_goals goals))).1 = save_goals goals ∧
    (∀ g : Goal, g ∈ (load_goals (.content (save_goals goals))).1 ↔ g ∈ goals) ∧
    (load_goals (.content (save_goals goals))).1.Sorted
      (fun a b : Goal => a.date ≤ b.date) := by
  refine ⟨rfl, ?_, ?_⟩
  · intro g
    exact (save_goals_perm goals).mem_iff
  · exact save_goals_sorted goals

/-- C9: after every successful `add_goal` or `delete_goal` the in-memory
goal list is sorted ascending by the date string under lexicographic
comparison — `save_goals` sorts it by date string, and the `update_display`
re-sort preserves this order (its parsed-date order coincides with the
string order on parseable dates, and its fallback is the string order
itself). -/
theorem C9_in_memory_sorted (goals : List Goal) :
    (∀ (name dateStr : String) (gs' : List Goal),
      add_goal goals name dateStr = .ok gs' →
      gs'.Sorted (fun a b : Goal => a.date ≤ b.date)) ∧
    (∀ (index : Int) (g : Goal) (gs' : List Goal),
      delete_goal goals index = .ok (g, gs') →
      gs'.Sorted (fun a b : Goal => a.date ≤ b.date)) := by
  constructor
  · intro n d gs' h
    obtain ⟨_, _, _, _, hgs⟩ := add_goal_ok_inv h
    rw [hgs]
    exact post_mutation_sorted _
  · intro i g gs' h
    obtain ⟨hin, _, hgs⟩ := delete_goal_ok_inv h
    rw [hgs]
    exact post_mutation_sorted _

/-- C9 witness: the state after adding a goal to the empty store is
sorted. -/
theorem C9_witness :
    (post_mutation_state [⟨"a", "2020-01-01"⟩]).Sorted
      (fun a b : Goal => a.date ≤ b.date) :=
  (C9_in_memory_sorted []).1 "a" "2020-01-01" (post_mutation_state [⟨"a", "2020-01-01"⟩]) rfl

/-- C10: for every positive day delta the clause list built by
`calculate_time_elapsed` is non-empty, so the fallback branch that formats
the raw delta when no clauses were built is unreachable for positive
deltas. -/
theorem C10_parts_nonempty (deltaDays : Int) (h : 0 < deltaDays) :
    elapsed_parts deltaDays ≠ [] :=
  elapsed_parts_ne_nil h

/-- C10 witness: delta 1. -/
theorem C10_witness : (0 : Int) < 1 ∧ elapsed_parts 1 ≠ [] :=
  ⟨by decide, C10_parts_nonempty 1 (by decide)⟩
